import Mathlib

/-!
Shallow embedding of the multi-sign document-signing core
(`src/app/provider/DocumentProvider.tsx`, `src/app/utils/jsonUtils.ts`,
`src/app/types/document.ts`) in Lean 4, together with theorems settling
the frozen claims about its specification.

Modelling conventions:
* JavaScript `Date` values are represented by their ISO-8601 string
  rendering (`Date.prototype.toISOString` is injective on valid dates, and
  the code only ever compares and prints dates through that rendering).
* The external cryptographic primitives (`ethers.keccak256 ∘ toUtf8Bytes`,
  and `ethers.recoverAddress ∘ ethers.hashMessage`) live outside the
  repository; they are passed in as explicit function parameters
  (`keccak : String → String`, `recover : String → String → Option String`,
  `none` modelling a thrown exception).
* A JavaScript value fed to `canonicalizeJSON` is modelled by the inductive
  `JsonValue`; a JS number is carried as its `JSON.stringify` rendering,
  since no claim depends on float formatting.
* The TypeScript `DocumentContent` carries a string discriminator `type`
  that always agrees with the variant stored in `data` for documents the
  provider constructs; the embedding fuses the two into one tagged union
  and derives the discriminator string with `contentTypeStr`.
-/

namespace MultiSign

/-- A JSON-like JavaScript value, as accepted by `canonicalizeJSON`
(`src/app/utils/jsonUtils.ts`).  `undef` models the JavaScript value
`undefined`; `num` carries the `JSON.stringify` rendering of the number. -/
inductive JsonValue where
  | null
  | undef
  | bool (b : Bool)
  | num (render : String)
  | str (s : String)
  | arr (items : List JsonValue)
  | obj (fields : List (String × JsonValue))

/-- The UTF-16 code units of a character (JavaScript strings are sequences
of UTF-16 code units; `Array.prototype.sort`'s default comparator compares
strings code-unit-wise). -/
def utf16Units (c : Char) : List Nat :=
  if c.toNat < 0x10000 then [c.toNat]
  else [0xD800 + (c.toNat - 0x10000) / 0x400, 0xDC00 + (c.toNat - 0x10000) % 0x400]

/-- The UTF-16 code-unit sequence of a string. -/
def utf16 (s : String) : List Nat := (s.data.map utf16Units).flatten

/-- Lexicographic strict comparison of code-unit sequences. -/
def lexLt : List Nat → List Nat → Bool
  | _, [] => false
  | [], _ :: _ => true
  | a :: as, b :: bs => if a < b then true else if b < a then false else lexLt as bs

/-- The default JavaScript string order (`a < b` on strings), i.e.
lexicographic on UTF-16 code units.  This is the order `Object.keys(x).sort()`
uses in `canonicalizeJSON`. -/
def jsLtStr (a b : String) : Bool := lexLt (utf16 a) (utf16 b)

/-- Non-strict version of `jsLtStr`. -/
def jsLeStr (a b : String) : Bool := !jsLtStr b a

/-- Strict code-point comparison of strings (the order named by the spec:
"object keys sorted by code-point ascending order"). -/
def cpLt (a b : String) : Bool := lexLt (a.data.map Char.toNat) (b.data.map Char.toNat)

/-- Non-strict version of `cpLt`. -/
def cpLe (a b : String) : Bool := !cpLt b a

/-- Lower-case hexadecimal digit. -/
def hexDigit (n : Nat) : Char := if n < 10 then Char.ofNat (48 + n) else Char.ofNat (87 + n)

/-- The escaping `JSON.stringify` applies to one character of a string. -/
def escapeChar (c : Char) : String :=
  if c.toNat == 34 then "\\\""
  else if c.toNat == 92 then "\\\\"
  else if c.toNat == 8 then "\\b"
  else if c.toNat == 9 then "\\t"
  else if c.toNat == 10 then "\\n"
  else if c.toNat == 12 then "\\f"
  else if c.toNat == 13 then "\\r"
  else if c.toNat < 32 then "\\u00" ++ String.mk [hexDigit (c.toNat / 16), hexDigit (c.toNat % 16)]
  else String.singleton c

/-- `JSON.stringify` on a string value. -/
def jsonStringify (s : String) : String :=
  "\"" ++ String.join (s.data.map escapeChar) ++ "\""

/-- The key order used on object fields, parameterized by a string order. -/
def pairLE (le : String → String → Bool) (p q : String × String) : Prop :=
  le p.1 q.1 = true

instance (le : String → String → Bool) : DecidableRel (pairLE le) :=
  fun p q => (le p.1 q.1).decEq true

/-- Render one already-canonicalized object field.  The source emits the key
verbatim (the template literal does not escape it). -/
def renderPair (p : String × String) : String := "\"" ++ p.1 ++ "\":" ++ p.2

mutual
/-- `canonicalizeJSON` from `src/app/utils/jsonUtils.ts`, parameterized by
the string order used on object keys.  The source sorts the (necessarily
distinct) keys first and then serializes each value; here each value is
serialized first and the (key, rendering) pairs are then stably
insertion-sorted by key, which produces the same list because the
comparison looks only at keys. -/
def canonValue (le : String → String → Bool) : JsonValue → String
  | .null => "null"
  | .undef => "undefined"
  | .bool b => cond b "true" "false"
  | .num r => r
  | .str s => jsonStringify s
  | .arr items => "[" ++ String.intercalate "," (canonItems le items) ++ "]"
  | .obj fields =>
      "\x7b" ++
        String.intercalate ","
          ((List.insertionSort (pairLE le) (canonFields le fields)).map renderPair) ++
      "\x7d"

/-- Canonicalize each element of an array in order. -/
def canonItems (le : String → String → Bool) : List JsonValue → List String
  | [] => []
  | v :: vs => canonValue le v :: canonItems le vs

/-- Canonicalize the value of each object field, keeping the key. -/
def canonFields (le : String → String → Bool) :
    List (String × JsonValue) → List (String × String)
  | [] => []
  | (k, v) :: ps => (k, canonValue le v) :: canonFields le ps
end

/-- `canonicalizeJSON` exactly as the source computes it: object keys in
ascending default-JavaScript-sort order, i.e. UTF-16 code-unit order. -/
def canonicalizeJSON (v : JsonValue) : String := canonValue jsLeStr v

/-- The canonicalizer as the spec words it ("object keys sorted by
code-point ascending order"); used only to compare against
`canonicalizeJSON`. -/
def canonicalizeJSONCodepoint (v : JsonValue) : String := canonValue cpLe v

/-- Pairwise distinctness of a list of strings. -/
def strNodup : List String → Bool
  | [] => true
  | k :: ks => !ks.contains k && strNodup ks

mutual
/-- Every object in the value has pairwise-distinct keys (always true for
values originating from JavaScript objects). -/
def nodupKeys : JsonValue → Bool
  | .null => true
  | .undef => true
  | .bool _ => true
  | .num _ => true
  | .str _ => true
  | .arr items => nodupKeysItems items
  | .obj fields => strNodup (fields.map Prod.fst) && nodupKeysFields fields

/-- `nodupKeys` on every element of an array. -/
def nodupKeysItems : List JsonValue → Bool
  | [] => true
  | v :: vs => nodupKeys v && nodupKeysItems vs

/-- `nodupKeys` on the value of every field. -/
def nodupKeysFields : List (String × JsonValue) → Bool
  | [] => true
  | (_, v) :: ps => nodupKeys v && nodupKeysFields ps
end

/-- `PDFData` from `src/app/types/document.ts`. -/
structure PDFData where
  base64 : String
  filename : String
  mimeType : String
  size : Nat
deriving DecidableEq

/-- The payload of a document, tagged by content kind (the TS union
`string | object | PDFData` together with its `type` discriminator). -/
inductive ContentData where
  | text (s : String)
  | json (v : JsonValue)
  | pdf (p : PDFData)

/-- The `type` discriminator string of a content payload. -/
def contentTypeStr : ContentData → String
  | .text _ => "text"
  | .json _ => "json"
  | .pdf _ => "pdf"

/-- `DocumentContent` from `src/app/types/document.ts` (`type` fused into
`data`, see the header comment). -/
structure DocumentContent where
  data : ContentData
  hash : String

/-- `DocumentUser` from `src/app/types/document.ts`.  JavaScript fields that
may be `undefined` are `Option`s; comparing a string against a possibly
`undefined` field with `===` is modelled by comparing against `some`. -/
structure DocumentUser where
  userId : String
  username : String
  email : Option String
  walletAddress : String
deriving DecidableEq

/-- `DocumentSigner` from `src/app/types/document.ts` (a required signer). -/
structure DocumentSigner where
  userId : String
  username : String
  walletAddress : Option String
  required : Bool
  hasSigned : Bool
deriving DecidableEq

/-- `DocumentSignature` from `src/app/types/document.ts`. -/
structure DocumentSignature where
  signer : DocumentUser
  signature : String
  signedAt : String
  documentHash : String
  verified : Bool
  verifiedAt : Option String
deriving DecidableEq

/-- `Document` from `src/app/types/document.ts`.  `status` keeps the source's
string literals: "draft", "pending", "partial", "complete", "cancelled". -/
structure Document where
  id : String
  content : DocumentContent
  createdBy : DocumentUser
  createdAt : String
  status : String
  requiredSigners : List DocumentSigner
  signatures : List DocumentSignature
  updatedAt : String

/-- The canonical form `hashDocumentContent` serializes before hashing
(`DocumentProvider.tsx` lines 133-159): the raw string for `text`,
`canonicalizeJSON` for `json`, the base64 payload for `pdf`. -/
def canonicalForm : ContentData → String
  | .text s => s
  | .json v => canonicalizeJSON v
  | .pdf p => p.base64

/-- `hashDocumentContent` (`DocumentProvider.tsx` lines 133-159), with the
external `ethers.keccak256 ∘ toUtf8Bytes` passed in as `keccak`. -/
def hashDocumentContent (keccak : String → String) (content : DocumentContent) : String :=
  keccak (canonicalForm content.data)

/-- `createDocumentMessage` (`DocumentProvider.tsx` lines 165-182). -/
def createDocumentMessage (doc : Document) : String :=
  String.intercalate "\n"
    [ "=== VIA DOCUMENT SIGNATURE ===",
      "",
      "Document ID: " ++ doc.id,
      "Content Type: " ++ contentTypeStr doc.content.data,
      "Content Hash: " ++ doc.content.hash,
      "Created: " ++ doc.createdAt,
      "Required Signers: " ++ String.intercalate ", " (doc.requiredSigners.map (fun s => s.userId)),
      "",
      "By signing this message, I confirm that I have reviewed and approve this document.",
      "",
      "=== END SIGNATURE ===" ]

/-- A required-signer entry as `createDocument` builds it
(`DocumentProvider.tsx` lines 260-265): `username` duplicates the stored
identifier and `hasSigned` starts false. -/
def mkRequiredSigner (userId : String) : DocumentSigner :=
  { userId := userId, username := userId, walletAddress := none,
    required := true, hasSigned := false }

/-- The document `createDocument` constructs (`DocumentProvider.tsx`
lines 249-267): content hash stamped by `hashDocumentContent`, status
"pending", no signatures. -/
def mkDocument (keccak : String → String) (id : String) (data : ContentData)
    (currentUser : DocumentUser) (now : String) (requiredSignerIds : List String) : Document :=
  { id := id,
    content := { data := data, hash := keccak (canonicalForm data) },
    createdBy := currentUser,
    createdAt := now,
    status := "pending",
    requiredSigners := requiredSignerIds.map mkRequiredSigner,
    signatures := [],
    updatedAt := now }

/-- The errors the signing path can throw (`DocumentProvider.tsx`
lines 439-527; the thrown `Error` messages are identified by these tags). -/
inductive SignError where
  | notAuthenticated
  | documentNotFound
  | alreadySigned
  | notARequiredSigner
  | signingFailed
deriving DecidableEq

/-- The `alreadySigned` check of `signDocument` (lines 450-454) and
`signDocumentDirect` (lines 360-364): an existing signature whose signer
has the caller's `userId`. -/
def alreadySignedCheck (doc : Document) (u : DocumentUser) : Bool :=
  doc.signatures.any (fun sig => sig.signer.userId == u.userId)

/-- The required-signer check of `signDocument` (lines 456-462): the stored
identifier equals the caller's `userId`, or the stored `username` equals the
caller's email (exact case). -/
def isRequiredSignerCheck (doc : Document) (u : DocumentUser) : Bool :=
  doc.requiredSigners.any (fun s => s.userId == u.userId || u.email == some s.username)

/-- The required-signer check of `signDocumentDirect` (lines 366-370):
stored identifier equals the caller's `userId` only. -/
def isRequiredSignerDirectCheck (doc : Document) (u : DocumentUser) : Bool :=
  doc.requiredSigners.any (fun s => s.userId == u.userId)

/-- The signature record appended on a successful signing
(`DocumentProvider.tsx` lines 479-486). -/
def mkSignature (u : DocumentUser) (sigBytes : String) (now : String) (docHash : String) :
    DocumentSignature :=
  { signer := u, signature := sigBytes, signedAt := now,
    documentHash := docHash, verified := false, verifiedAt := none }

/-- The per-entry `hasSigned` update inside the append
(`DocumentProvider.tsx` lines 494-500). -/
def markSigned (u : DocumentUser) (s : DocumentSigner) : DocumentSigner :=
  let hasSignedNow := s.userId == u.userId || some s.userId == u.email ||
    some s.username == u.email
  if hasSignedNow then { s with hasSigned := true } else s

/-- The `setDocuments` update closure of `signDocument`
(`DocumentProvider.tsx` lines 489-518; `signDocumentDirect` lines 396-425
is identical): append the signature, refresh the `hasSigned` flags, and
recompute `status` from those flags. -/
def applySignature (u : DocumentUser) (docSig : DocumentSignature)
    (documentId : String) (now : String) (d : Document) : Document :=
  if d.id != documentId then d
  else
    let newSignatures := d.signatures ++ [docSig]
    let newRequiredSigners := d.requiredSigners.map (markSigned u)
    let newStatus :=
      if newRequiredSigners.all (fun s => s.hasSigned) then "complete"
      else if newSignatures.length > 0 then "partial"
      else d.status
    { d with signatures := newSignatures, requiredSigners := newRequiredSigners,
             status := newStatus, updatedAt := now }

/-- `getDocument` (`DocumentProvider.tsx` lines 292-294). -/
def findDocument (docs : List Document) (id : String) : Option Document :=
  docs.find? (fun d => d.id == id)

/-- `signDocument` (`DocumentProvider.tsx` lines 439-527) as a pure state
transformer.  `currentUser` is `getCurrentUser()`'s result (`none` when not
authenticated or no wallet session), `signResult` is what the external
`signMessage` capability returned (`none` when it failed or produced no
signature), `now` is the clock reading.  A thrown error is `Except.error`;
the provider's `documents` state is only written on the success path. -/
def signDocument (docs : List Document) (currentUser : Option DocumentUser)
    (documentId : String) (signResult : Option String) (now : String) :
    Except SignError (List Document) :=
  match currentUser with
  | none => .error .notAuthenticated
  | some u =>
    match findDocument docs documentId with
    | none => .error .documentNotFound
    | some doc =>
      if alreadySignedCheck doc u then .error .alreadySigned
      else if !isRequiredSignerCheck doc u then .error .notARequiredSigner
      else
        match signResult with
        | none => .error .signingFailed
        | some sigBytes =>
          .ok (docs.map (applySignature u (mkSignature u sigBytes now doc.content.hash)
                documentId now))

/-- `signDocumentDirect` (`DocumentProvider.tsx` lines 354-434): same shape
as `signDocument` but the document is passed directly and the
required-signer check matches by `userId` only. -/
def signDocumentDirect (docs : List Document) (doc : Document)
    (currentUser : Option DocumentUser) (signResult : Option String) (now : String) :
    Except SignError (List Document) :=
  match currentUser with
  | none => .error .notAuthenticated
  | some u =>
    if alreadySignedCheck doc u then .error .alreadySigned
    else if !isRequiredSignerDirectCheck doc u then .error .notARequiredSigner
    else
      match signResult with
      | none => .error .signingFailed
      | some sigBytes =>
        .ok (docs.map (applySignature u (mkSignature u sigBytes now doc.content.hash)
              doc.id now))

/-- The provider's `documents` React state after a `signDocument` call: the
single `setDocuments` write happens at the end of the success path, so a
thrown error leaves the state untouched. -/
def signDocumentRun (docs : List Document) (currentUser : Option DocumentUser)
    (documentId : String) (signResult : Option String) (now : String) :
    List Document × Option SignError :=
  match signDocument docs currentUser documentId signResult now with
  | .ok newDocs => (newDocs, none)
  | .error e => (docs, some e)

/-- `SignatureStatus` from `src/app/types/document.ts`. -/
structure SignatureStatus where
  total : Nat
  signed : Nat
  percentage : Nat
  pending : List String
  complete : Bool
  missingSigners : List DocumentSigner
deriving DecidableEq

/-- `Math.round((signed / total) * 100)` for `total > 0`, as the exact
rational rounding (half away from zero); the claims never depend on the
rare float-rounding boundary cases. -/
def roundPct (signed total : Nat) : Nat := (2 * (signed * 100) + total) / (2 * total)

/-- The body of `getSignatureStatus` (`DocumentProvider.tsx` lines 536-550)
once the document is found. -/
def getSignatureStatusDoc (doc : Document) : SignatureStatus :=
  let total := doc.requiredSigners.length
  let signed := doc.signatures.length
  { total := total,
    signed := signed,
    percentage := if total > 0 then roundPct signed total else 0,
    pending := (doc.requiredSigners.filter (fun s => !s.hasSigned)).map (fun s => s.userId),
    complete := signed == total,
    missingSigners := doc.requiredSigners.filter (fun s => !s.hasSigned) }

/-- `getSignatureStatus` (`DocumentProvider.tsx` lines 532-551). -/
def getSignatureStatus (docs : List Document) (documentId : String) :
    Option SignatureStatus :=
  (findDocument docs documentId).map getSignatureStatusDoc

/-- ASCII lower-casing, modelling `String.prototype.toLowerCase` on the hex
addresses it is applied to. -/
def lowerAscii (s : String) : String := String.mk (s.data.map Char.toLower)

/-- `SignatureVerification` from `src/app/types/document.ts`. -/
structure SignatureVerification where
  valid : Bool
  recoveredAddress : String
  expectedAddress : String
  addressMatch : Bool
  hashMatch : Bool
  error : Option String
deriving DecidableEq

/-- `verifySignature` (`DocumentProvider.tsx` lines 556-589).  `recover`
models `ethers.recoverAddress (ethers.hashMessage message) signatureBytes`;
`none` models a throw, handled by the catch block. -/
def verifySignature (recover : String → String → Option String)
    (sig : DocumentSignature) (doc : Document) : SignatureVerification :=
  let message := createDocumentMessage doc
  match recover message sig.signature with
  | some recoveredAddress =>
    let addressMatch := lowerAscii recoveredAddress == lowerAscii sig.signer.walletAddress
    let hashMatch := sig.documentHash == doc.content.hash
    { valid := addressMatch && hashMatch,
      recoveredAddress := recoveredAddress,
      expectedAddress := sig.signer.walletAddress,
      addressMatch := addressMatch,
      hashMatch := hashMatch,
      error := none }
  | none =>
    { valid := false, recoveredAddress := "",
      expectedAddress := sig.signer.walletAddress,
      addressMatch := false, hashMatch := false,
      error := some "Verification failed" }

/-- `DocumentVerification` from `src/app/types/document.ts`
(`verifiedAt` omitted: it is `new Date()` at call time). -/
structure DocumentVerification where
  valid : Bool
  signaturesValid : Bool
  contentHashValid : Bool
  allSignersPresent : Bool
  errors : List String
deriving DecidableEq

/-- The dynamic required-signer coverage check of `verifyDocument`
(`DocumentProvider.tsx` lines 613-623). -/
def signerHasSignature (doc : Document) (signer : DocumentSigner) : Bool :=
  doc.signatures.any (fun sig =>
    sig.signer.userId == signer.userId ||
    sig.signer.email == some signer.userId ||
    sig.signer.userId == signer.username)

/-- The body of `verifyDocument` (`DocumentProvider.tsx` lines 594-639) once
the document is found (the per-signature error strings keep the signer's
username; the appended detail text is not modelled). -/
def verifyDocumentDoc (keccak : String → String)
    (recover : String → String → Option String) (doc : Document) : DocumentVerification :=
  let contentHashValid := hashDocumentContent keccak doc.content == doc.content.hash
  let signaturesValid := doc.signatures.all (fun sig => (verifySignature recover sig doc).valid)
  let sigErrors := (doc.signatures.filter (fun sig => !(verifySignature recover sig doc).valid)).map
    (fun sig => "Invalid signature from " ++ sig.signer.username)
  let allSignersPresent := doc.requiredSigners.all (signerHasSignature doc)
  let errors := sigErrors ++ (if allSignersPresent then [] else ["Not all required signers have signed"])
  { valid := signaturesValid && contentHashValid && allSignersPresent,
    signaturesValid := signaturesValid,
    contentHashValid := contentHashValid,
    allSignersPresent := allSignersPresent,
    errors := errors }

/-- The documents reachable through the provider's own operations: created
by `createDocument`, then mutated only by successful signature appends
whose preconditions (no duplicate by `userId`, caller passes one of the two
required-signer checks) held. -/
inductive Reachable : Document → Prop where
  | created : ∀ keccak id data u now ids, Reachable (mkDocument keccak id data u now ids)
  | signed : ∀ d u sigBytes now, Reachable d →
      alreadySignedCheck d u = false →
      (isRequiredSignerCheck d u || isRequiredSignerDirectCheck d u) = true →
      Reachable (applySignature u (mkSignature u sigBytes now d.content.hash) d.id now d)

/-- Modelled from the spec: the §4.4 identity-match policy between a
required-signer entry (its stored identifier) and an authenticated
identity — equal subjectId, or equal email compared case-insensitively, or
the stored identifier equal to the identity's display name.  The repository
has no single shared predicate for this (§9 notes the policy is duplicated
ad hoc); this definition follows the spec's words and is used only to
compare the code's behaviour against the claimed policy. -/
def specIdentityMatch (s : DocumentSigner) (u : DocumentUser) : Bool :=
  s.userId == u.userId ||
  (match u.email with
   | some e => lowerAscii s.userId == lowerAscii e
   | none => false) ||
  s.userId == u.username

/-- Modelled from the spec: the §4.4 policy applied between a stored
signature's signer snapshot and the calling identity (the duplicate check
of precondition 3) — equal subjectId, case-insensitively equal email, or
the stored signer's identifier equal to the caller's display name. -/
def specSignerMatch (a : DocumentUser) (b : DocumentUser) : Bool :=
  a.userId == b.userId ||
  (match a.email, b.email with
   | some e1, some e2 => lowerAscii e1 == lowerAscii e2
   | _, _ => false) ||
  a.userId == b.username

/-- The strict UTF-16 key order on rendered fields. -/
def pairLT (p q : String × String) : Prop := jsLtStr p.1 q.1 = true

/-- `w` arises from `v` by permuting the fields of objects (at any depth)
while keeping each key attached to its value; array order is untouched.
The `obj` constructor first rewrites the values in place (`l₁` to `l₃`,
same keys in the same order) and then permutes the field list. -/
inductive KeyPerm : JsonValue → JsonValue → Prop where
  | null : KeyPerm .null .null
  | undef : KeyPerm .undef .undef
  | bool (b : Bool) : KeyPerm (.bool b) (.bool b)
  | num (r : String) : KeyPerm (.num r) (.num r)
  | str (s : String) : KeyPerm (.str s) (.str s)
  | arr {xs ys : List JsonValue} :
      List.Forall₂ KeyPerm xs ys → KeyPerm (.arr xs) (.arr ys)
  | obj {l₁ l₃ l₂ : List (String × JsonValue)} :
      l₁.map Prod.fst = l₃.map Prod.fst →
      List.Forall₂ KeyPerm (l₁.map Prod.snd) (l₃.map Prod.snd) →
      l₃.Perm l₂ →
      KeyPerm (.obj l₁) (.obj l₂)

/-- An external in-place edit of the stored content payload (the spec's
Scenario C): `content.data` is replaced, the stamped `content.hash` and
every other field stay as persisted. -/
def mutateContent (doc : Document) (data' : ContentData) : Document :=
  { doc with content := { data := data', hash := doc.content.hash } }

/-! ### Concrete fixtures used by witnesses and counterexamples -/

/-- A concrete injective stand-in for the external keccak hash. -/
def hashFn (s : String) : String := "0x" ++ s

/-- A concrete stand-in for address recovery that always recovers `0xaa`. -/
def recoverAA (_m _sg : String) : Option String := some "0xaa"

/-- A concrete authenticated identity. -/
def alice : DocumentUser :=
  { userId := "alice", username := "alice", email := some "alice@x.com",
    walletAddress := "0xaa" }

def c7sig : DocumentSignature := mkSignature alice "0xsig" "T1" "0xhello"

def c7docA : Document :=
  { id := "doc7", content := { data := .text "hello", hash := "0xhello" },
    createdBy := alice, createdAt := "T0", status := "pending",
    requiredSigners := [mkRequiredSigner "alice", mkRequiredSigner "bob"],
    signatures := [], updatedAt := "T0" }

def c7docB : Document :=
  { c7docA with signatures := [c7sig], status := "partial", updatedAt := "T2" }

def c9doc : Document := mkDocument hashFn "doc9" (.text "hi") alice "T0" ["alice"]

def c3signer : DocumentSigner := mkRequiredSigner "alice@x.com"

def c3user : DocumentUser :=
  { userId := "u9", username := "Alice", email := some "Alice@X.com",
    walletAddress := "0x1" }

def c3doc : Document :=
  { id := "doc3", content := { data := .text "t", hash := "0xt" },
    createdBy := c3user, createdAt := "T0", status := "pending",
    requiredSigners := [c3signer], signatures := [], updatedAt := "T0" }

def c3wdoc : Document :=
  { c3doc with id := "doc3w", requiredSigners := [mkRequiredSigner "bob"] }

def c4user : DocumentUser :=
  { userId := "u3", username := "U3", email := some "u3@x.com", walletAddress := "0x3" }

def c4doc : Document :=
  { id := "doc4", content := { data := .text "t", hash := "0xt" },
    createdBy := c4user, createdAt := "T0", status := "pending",
    requiredSigners := [mkRequiredSigner "bob"],
    signatures := [mkSignature c4user "0xs" "T0" "0xt"], updatedAt := "T0" }

def c5sigUser : DocumentUser :=
  { userId := "u1", username := "U1", email := some "a@x.com", walletAddress := "0x1" }

def c5user : DocumentUser :=
  { userId := "u2", username := "A", email := some "a@x.com", walletAddress := "0x2" }

def c5doc : Document :=
  { id := "doc5", content := { data := .text "t", hash := "0xt" },
    createdBy := c5sigUser, createdAt := "T0", status := "partial",
    requiredSigners := [mkRequiredSigner "a@x.com"],
    signatures := [mkSignature c5sigUser "0xs" "T0" "0xt"], updatedAt := "T0" }

def c5wdoc : Document :=
  { c5doc with
    id := "doc5w"
    requiredSigners := [mkRequiredSigner "u2"]
    signatures := [] }

def c2creator : DocumentUser :=
  { userId := "u0", username := "creator", email := none, walletAddress := "0x0" }

/-- A document created in-app with required signers "u1" and "bob". -/
def c2doc : Document := mkDocument hashFn "doc2" (.text "x") c2creator "T0" ["u1", "bob"]

/-- An identity whose subject id is "u1" and whose display name is "bob":
per the spec's §4.4 policy one signature from this identity matches both
required-signer entries. -/
def c2alice : DocumentUser :=
  { userId := "u1", username := "bob", email := none, walletAddress := "0xA" }

def c2after : List Document :=
  (signDocument [c2doc] (some c2alice) "doc2" (some "0xsig") "T1").toOption.getD []

def c10doc : Document := mkDocument hashFn "doc10" (.text "t") alice "T0" []

def c1sig : DocumentSignature := mkSignature alice "0xsig" "T1" "0xhello"

/-- A fully signed text document whose stored hash is consistent with the
stand-in hash function (`hashFn "hello" = "0xhello"`). -/
def c1orig : Document :=
  { id := "doc1", content := { data := .text "hello", hash := "0xhello" },
    createdBy := alice, createdAt := "T0", status := "complete",
    requiredSigners := [{ mkRequiredSigner "alice" with hasSigned := true }],
    signatures := [c1sig], updatedAt := "T1" }

def c1mut : Document := mutateContent c1orig (.text "hellp")

def c6v : JsonValue := .obj [("b", .num "1"), ("a", .num "2")]

def c6w : JsonValue := .obj [("a", .num "2"), ("b", .num "1")]

/-- A BMP key (`U+FF61`) and a supplementary-plane key (`U+10000`): in
code-point order the BMP key comes first, but JavaScript's default sort
compares UTF-16 code units, where the surrogate pair of `U+10000` starts
with `0xD800 < 0xFF61`. -/
def cpKeyA : String := String.singleton (Char.ofNat 0xFF61)

def cpKeyB : String := String.singleton (Char.ofNat 0x10000)

def cpObj : JsonValue := .obj [(cpKeyA, .null), (cpKeyB, .null)]

/-! ### Properties of the UTF-16 lexicographic key order -/

theorem lexLt_asymm : ∀ x y : List Nat, lexLt x y = true → lexLt y x = false
  | _, [], h => by simp [lexLt] at h
  | [], _ :: _, _ => by simp [lexLt]
  | a :: as, b :: bs, h => by
    by_cases hab : a < b
    · have hba : ¬ b < a := by omega
      simp [lexLt, hab, hba]
    · by_cases hba : b < a
      · simp [lexLt, hab, hba] at h
      · have : lexLt as bs = true := by simpa [lexLt, hab, hba] using h
        simpa [lexLt, hab, hba] using lexLt_asymm as bs this

theorem lexLt_eq_of_not_lt : ∀ x y : List Nat,
    lexLt x y = false → lexLt y x = false → x = y
  | [], [], _, _ => rfl
  | [], _ :: _, h, _ => by simp [lexLt] at h
  | _ :: _, [], _, h => by simp [lexLt] at h
  | a :: as, b :: bs, h1, h2 => by
    by_cases hab : a < b
    · simp [lexLt, hab] at h1
    · by_cases hba : b < a
      · simp [lexLt, hba] at h2
      · have ha : a = b := by omega
        have hs := lexLt_eq_of_not_lt as bs
          (by simpa [lexLt, hab, hba] using h1)
          (by simpa [lexLt, hab, hba] using h2)
        rw [ha, hs]

theorem lexLt_trans : ∀ x y z : List Nat,
    lexLt x y = true → lexLt y z = true → lexLt x z = true
  | _, _, [], _, h2 => by simp [lexLt] at h2
  | _, [], _ :: _, h1, _ => by simp [lexLt] at h1
  | [], _ :: _, _ :: _, _, _ => by simp [lexLt]
  | a :: as, b :: bs, c :: cs, h1, h2 => by
    by_cases hab : a < b
    · by_cases hbc : b < c
      · have : a < c := by omega
        simp [lexLt, this]
      · by_cases hcb : c < b
        · simp [lexLt, hbc, hcb] at h2
        · have hbec : b = c := by omega
          have : a < c := by omega
          simp [lexLt, this]
    · by_cases hba : b < a
      · simp [lexLt, hab, hba] at h1
      · have haeb : a = b := by omega
        by_cases hbc : b < c
        · have : a < c := by omega
          simp [lexLt, this]
        · by_cases hcb : c < b
          · simp [lexLt, hbc, hcb] at h2
          · have hac : ¬ a < c := by omega
            have hca : ¬ c < a := by omega
            have := lexLt_trans as bs cs
              (by simpa [lexLt, hab, hba] using h1)
              (by simpa [lexLt, hbc, hcb] using h2)
            simpa [lexLt, hac, hca] using this

theorem char_valid_nat (c : Char) :
    c.toNat < 0xD800 ∨ (0xDFFF < c.toNat ∧ c.toNat < 0x110000) := by
  rcases c.valid with h | ⟨h1, h2⟩
  · exact Or.inl (by simpa [Char.toNat] using h)
  · exact Or.inr ⟨by simpa [Char.toNat] using h1, by simpa [Char.toNat] using h2⟩

theorem char_eq_of_toNat_eq {a b : Char} (h : a.toNat = b.toNat) : a = b := by
  have h2 := Char.ofNat_toNat a
  rw [h, Char.ofNat_toNat b] at h2
  exact h2.symm

theorem utf16Units_append_inj {c₁ c₂ : Char} {r₁ r₂ : List Nat}
    (h : utf16Units c₁ ++ r₁ = utf16Units c₂ ++ r₂) : c₁ = c₂ ∧ r₁ = r₂ := by
  have hv₁ := char_valid_nat c₁
  have hv₂ := char_valid_nat c₂
  unfold utf16Units at h
  by_cases h₁ : c₁.toNat < 0x10000
  · by_cases h₂ : c₂.toNat < 0x10000
    · rw [if_pos h₁, if_pos h₂] at h
      simp only [List.cons_append, List.nil_append, List.cons.injEq] at h
      exact ⟨char_eq_of_toNat_eq h.1, h.2⟩
    · exfalso
      rw [if_pos h₁, if_neg h₂] at h
      simp only [List.cons_append, List.nil_append, List.cons.injEq] at h
      obtain ⟨heq, -⟩ := h
      have hd : (c₂.toNat - 0x10000) / 0x400 < 0x400 :=
        (Nat.div_lt_iff_lt_mul (by omega)).mpr (by omega)
      omega
  · by_cases h₂ : c₂.toNat < 0x10000
    · exfalso
      rw [if_neg h₁, if_pos h₂] at h
      simp only [List.cons_append, List.nil_append, List.cons.injEq] at h
      obtain ⟨heq, -⟩ := h
      have hd : (c₁.toNat - 0x10000) / 0x400 < 0x400 :=
        (Nat.div_lt_iff_lt_mul (by omega)).mpr (by omega)
      omega
    · rw [if_neg h₁, if_neg h₂] at h
      simp only [List.cons_append, List.nil_append, List.cons.injEq] at h
      obtain ⟨hhi, hlo, hrest⟩ := h
      have hdiv : (c₁.toNat - 0x10000) / 0x400 = (c₂.toNat - 0x10000) / 0x400 := by omega
      have hmod : (c₁.toNat - 0x10000) % 0x400 = (c₂.toNat - 0x10000) % 0x400 := by omega
      have heq : c₁.toNat - 0x10000 = c₂.toNat - 0x10000 := by
        have e₁ := Nat.div_add_mod (c₁.toNat - 0x10000) 0x400
        have e₂ := Nat.div_add_mod (c₂.toNat - 0x10000) 0x400
        omega
      exact ⟨char_eq_of_toNat_eq (by omega), hrest⟩

theorem utf16List_inj : ∀ l₁ l₂ : List Char,
    (l₁.map utf16Units).flatten = (l₂.map utf16Units).flatten → l₁ = l₂
  | [], [], _ => rfl
  | [], c :: _, h => by
    exfalso
    have : utf16Units c ≠ [] := by
      by_cases hc : c.toNat < 0x10000 <;> simp [utf16Units, hc]
    simp only [List.map_nil, List.flatten_nil, List.map_cons, List.flatten_cons] at h
    rcases List.append_eq_nil.mp h.symm with ⟨h1, _⟩
    exact this h1
  | c :: _, [], h => by
    exfalso
    have : utf16Units c ≠ [] := by
      by_cases hc : c.toNat < 0x10000 <;> simp [utf16Units, hc]
    simp only [List.map_nil, List.flatten_nil, List.map_cons, List.flatten_cons] at h
    rcases List.append_eq_nil.mp h with ⟨h1, _⟩
    exact this h1
  | c₁ :: l₁, c₂ :: l₂, h => by
    simp only [List.map_cons, List.flatten_cons] at h
    obtain ⟨hc, hrest⟩ := utf16Units_append_inj h
    rw [hc, utf16List_inj l₁ l₂ hrest]

theorem utf16_inj {s t : String} (h : utf16 s = utf16 t) : s = t := by
  have hd : s.data = t.data := utf16List_inj _ _ h
  cases s; cases t
  exact congrArg String.mk (by simpa using hd)

theorem jsLeStr_total (a b : String) : jsLeStr a b = true ∨ jsLeStr b a = true := by
  cases h : lexLt (utf16 b) (utf16 a) with
  | false => exact Or.inl (by simp [jsLeStr, jsLtStr, h])
  | true => exact Or.inr (by simp [jsLeStr, jsLtStr, lexLt_asymm _ _ h])

theorem jsLeStr_antisymm {a b : String} (h1 : jsLeStr a b = true)
    (h2 : jsLeStr b a = true) : a = b := by
  simp only [jsLeStr, jsLtStr, Bool.not_eq_true'] at h1 h2
  exact utf16_inj (lexLt_eq_of_not_lt _ _ h2 h1)

theorem jsLeStr_trans {a b c : String} (h1 : jsLeStr a b = true)
    (h2 : jsLeStr b c = true) : jsLeStr a c = true := by
  simp only [jsLeStr, jsLtStr, Bool.not_eq_true'] at h1 h2 ⊢
  cases hca : lexLt (utf16 c) (utf16 a) with
  | false => rfl
  | true =>
    exfalso
    cases hab : lexLt (utf16 a) (utf16 b) with
    | true =>
      have hcb := lexLt_trans _ _ _ hca hab
      rw [h2] at hcb
      exact Bool.false_ne_true hcb
    | false =>
      have hba : utf16 b = utf16 a := lexLt_eq_of_not_lt _ _ h1 hab
      rw [hba] at h2
      rw [h2] at hca
      exact Bool.false_ne_true hca

theorem pairLE_of_not_lt {p q : String × String} (hne : p.1 ≠ q.1)
    (hle : pairLE jsLeStr p q) : pairLT p q := by
  have hqp : lexLt (utf16 q.1) (utf16 p.1) = false := by
    simpa [pairLE, jsLeStr, jsLtStr, Bool.not_eq_true'] using hle
  show jsLtStr p.1 q.1 = true
  cases hpq : lexLt (utf16 p.1) (utf16 q.1) with
  | true => exact hpq
  | false => exact absurd (utf16_inj (lexLt_eq_of_not_lt _ _ hpq hqp)) hne

theorem sorted_pairLT {l : List (String × String)}
    (hs : l.Sorted (pairLE jsLeStr)) (hnd : (l.map Prod.fst).Nodup) :
    l.Sorted pairLT := by
  have hne : l.Pairwise (fun p q : String × String => p.1 ≠ q.1) :=
    List.pairwise_map.mp hnd
  exact hs.imp₂ (fun p q hle hne => pairLE_of_not_lt hne hle) hne

/-- Sorting two permutations of a duplicate-free-keyed field list by key
gives the same list. -/
theorem insertionSort_eq_of_perm {A B : List (String × String)}
    (hperm : A.Perm B) (hnd : (A.map Prod.fst).Nodup) :
    List.insertionSort (pairLE jsLeStr) A = List.insertionSort (pairLE jsLeStr) B := by
  haveI : IsTotal (String × String) (pairLE jsLeStr) :=
    ⟨fun p q => jsLeStr_total p.1 q.1⟩
  haveI : IsTrans (String × String) (pairLE jsLeStr) :=
    ⟨fun _ _ _ h1 h2 => jsLeStr_trans h1 h2⟩
  haveI : IsAntisymm (String × String) pairLT :=
    ⟨fun p q h1 h2 => by
      have h1' : lexLt (utf16 p.1) (utf16 q.1) = true := h1
      have h2' : lexLt (utf16 q.1) (utf16 p.1) = true := h2
      have := lexLt_asymm _ _ h1'
      rw [h2'] at this
      exact absurd this (by simp)⟩
  have sA := List.sorted_insertionSort (pairLE jsLeStr) A
  have sB := List.sorted_insertionSort (pairLE jsLeStr) B
  have pA := List.perm_insertionSort (pairLE jsLeStr) A
  have pB := List.perm_insertionSort (pairLE jsLeStr) B
  have hndA : ((List.insertionSort (pairLE jsLeStr) A).map Prod.fst).Nodup :=
    ((pA.map Prod.fst).nodup_iff).mpr hnd
  have hndB : ((List.insertionSort (pairLE jsLeStr) B).map Prod.fst).Nodup :=
    ((pB.map Prod.fst).nodup_iff).mpr (((hperm.map Prod.fst).nodup_iff).mp hnd)
  exact List.eq_of_perm_of_sorted (pA.trans (hperm.trans pB.symm))
    (sorted_pairLT sA hndA) (sorted_pairLT sB hndB)

theorem canonItems_congr (le : String → String → Bool) :
    ∀ {xs ys : List JsonValue}, List.Forall₂ KeyPerm xs ys →
      (∀ x ∈ xs, ∀ y, KeyPerm x y → canonValue le x = canonValue le y) →
      canonItems le xs = canonItems le ys
  | _, _, .nil, _ => rfl
  | x :: xs, y :: ys, .cons hxy htail, hIH => by
    have h1 : canonValue le x = canonValue le y := hIH x (by simp) y hxy
    have h2 : canonItems le xs = canonItems le ys :=
      canonItems_congr le htail (fun a ha b hab => hIH a (by simp [ha]) b hab)
    simp [canonItems, h1, h2]

theorem canonFields_congr (le : String → String → Bool) :
    ∀ {l₁ l₃ : List (String × JsonValue)},
      l₁.map Prod.fst = l₃.map Prod.fst →
      List.Forall₂ KeyPerm (l₁.map Prod.snd) (l₃.map Prod.snd) →
      (∀ p ∈ l₁, ∀ w, KeyPerm p.2 w → canonValue le p.2 = canonValue le w) →
      canonFields le l₁ = canonFields le l₃
  | [], [], _, _, _ => rfl
  | [], q :: l₃, hk, _, _ => by simp at hk
  | p :: l₁, [], hk, _, _ => by simp at hk
  | (k₁, v₁) :: l₁, (k₂, v₂) :: l₃, hk, hv, hIH => by
    simp only [List.map_cons, List.cons.injEq] at hk
    simp only [List.map_cons] at hv
    cases hv with
    | cons hvv htail =>
      have h1 : canonValue le v₁ = canonValue le v₂ := hIH (k₁, v₁) (by simp) v₂ hvv
      have h2 := canonFields_congr le hk.2 htail (fun p hp w hw => hIH p (by simp [hp]) w hw)
      simp [canonFields, hk.1, h1, h2]

theorem canonFields_eq_map (le : String → String → Bool) :
    ∀ l, canonFields le l = l.map (fun p => (p.1, canonValue le p.2))
  | [] => rfl
  | (k, v) :: ps => by simp [canonFields, canonFields_eq_map le ps]

theorem strNodup_nodup : ∀ l : List String, strNodup l = true → l.Nodup
  | [], _ => List.nodup_nil
  | k :: ks, h => by
    simp only [strNodup, Bool.and_eq_true, Bool.not_eq_true'] at h
    refine List.nodup_cons.mpr ⟨?_, strNodup_nodup ks h.2⟩
    intro hmem
    have : ks.contains k = true := List.elem_eq_true_of_mem hmem
    rw [this] at h
    exact absurd h.1 (by simp)

theorem nodupKeysItems_mem : ∀ {xs : List JsonValue}, nodupKeysItems xs = true →
    ∀ x ∈ xs, nodupKeys x = true
  | [], _, x, hx => absurd hx (List.not_mem_nil x)
  | v :: vs, h, x, hx => by
    simp only [nodupKeysItems, Bool.and_eq_true] at h
    rcases List.mem_cons.mp hx with he | ht
    · exact he ▸ h.1
    · exact nodupKeysItems_mem h.2 x ht

theorem nodupKeysFields_mem : ∀ {l : List (String × JsonValue)}, nodupKeysFields l = true →
    ∀ p ∈ l, nodupKeys p.2 = true
  | [], _, p, hp => absurd hp (List.not_mem_nil p)
  | (k, v) :: ps, h, p, hp => by
    simp only [nodupKeysFields, Bool.and_eq_true] at h
    rcases List.mem_cons.mp hp with he | ht
    · exact he ▸ h.1
    · exact nodupKeysFields_mem h.2 p ht

theorem canonicalizeJSON_keyPerm_aux :
    ∀ n : Nat, ∀ v w : JsonValue, sizeOf v ≤ n → KeyPerm v w →
      nodupKeys v = true → canonValue jsLeStr v = canonValue jsLeStr w := by
  intro n
  induction n with
  | zero =>
    intro v w hs _ _
    exact absurd hs (by cases v <;> simp)
  | succ n ih =>
    intro v w hs hkp hnd
    cases hkp with
    | null => rfl
    | undef => rfl
    | bool b => rfl
    | num r => rfl
    | str s => rfl
    | arr hforall =>
      next xs ys =>
      have harr : canonItems jsLeStr xs = canonItems jsLeStr ys := by
        refine canonItems_congr _ hforall (fun x hx y hxy => ?_)
        have h1 := List.sizeOf_lt_of_mem hx
        have h2 : sizeOf (JsonValue.arr xs) = 1 + sizeOf xs := by simp
        refine ih x y (by omega) hxy ?_
        exact nodupKeysItems_mem (by simpa [nodupKeys] using hnd) x hx
      simp [canonValue, harr]
    | obj hk hv hperm =>
      next l₁ l₃ l₂ =>
      have hnd1 : strNodup (l₁.map Prod.fst) = true ∧ nodupKeysFields l₁ = true := by
        simpa [nodupKeys, Bool.and_eq_true] using hnd
      have h13 : canonFields jsLeStr l₁ = canonFields jsLeStr l₃ := by
        refine canonFields_congr _ hk hv (fun p hp w hw => ?_)
        have h1 := List.sizeOf_lt_of_mem hp
        have h2 : sizeOf (JsonValue.obj l₁) = 1 + sizeOf l₁ := by simp
        have h3 : sizeOf p.2 < sizeOf p := by cases p; simp
        refine ih p.2 w (by omega) hw ?_
        exact nodupKeysFields_mem hnd1.2 p hp
      have hmapperm : (canonFields jsLeStr l₃).Perm (canonFields jsLeStr l₂) := by
        rw [canonFields_eq_map, canonFields_eq_map]
        exact hperm.map _
      have hndkeys : ((canonFields jsLeStr l₁).map Prod.fst).Nodup := by
        rw [canonFields_eq_map]
        have : (l₁.map (fun p => (p.1, canonValue jsLeStr p.2))).map Prod.fst =
            l₁.map Prod.fst := by
          simp [List.map_map, Function.comp]
        rw [this]
        exact strNodup_nodup _ hnd1.1
      have hsort : List.insertionSort (pairLE jsLeStr) (canonFields jsLeStr l₁) =
          List.insertionSort (pairLE jsLeStr) (canonFields jsLeStr l₂) :=
        insertionSort_eq_of_perm (h13 ▸ hmapperm) hndkeys
      simp [canonValue, hsort]

/-! ### Claims -/

/-- Claim C7: `createDocumentMessage` is a pure function of only the
document's id, content type, content hash, creation time and
required-signer list; documents agreeing on those (whatever their
signatures, status or other mutable fields) get byte-identical messages,
and — the embedding being a pure function — repeated calls agree. -/
theorem C7_message_pure_function (d₁ d₂ : Document)
    (hid : d₁.id = d₂.id)
    (htype : contentTypeStr d₁.content.data = contentTypeStr d₂.content.data)
    (hhash : d₁.content.hash = d₂.content.hash)
    (hcreated : d₁.createdAt = d₂.createdAt)
    (hsigners : d₁.requiredSigners = d₂.requiredSigners) :
    createDocumentMessage d₁ = createDocumentMessage d₂ := by
  simp [createDocumentMessage, hid, htype, hhash, hcreated, hsigners]

theorem C7_witness :
    c7docA.signatures ≠ c7docB.signatures ∧ c7docA.status ≠ c7docB.status ∧
    createDocumentMessage c7docA = createDocumentMessage c7docB :=
  ⟨by decide, by decide, C7_message_pure_function c7docA c7docB rfl rfl rfl rfl rfl⟩

/-- Claim C8: the spec requires canonicalization to fail with
`UnsupportedValue` on values with no JSON representation instead of
emitting a placeholder; the code instead returns the placeholder token
`undefined` (which is not JSON) for the value `undefined`, both at top
level and inside arrays, and never raises. -/
theorem C8_undefined_placeholder :
    canonicalizeJSON .undef = "undefined" ∧
    canonicalizeJSON (.arr [.undef]) = "[undefined]" := by
  constructor
  · simp [canonicalizeJSON, canonValue]
  · simp only [canonicalizeJSON, canonValue, canonItems]
    decide

/-- Claim C9: when the external signing capability returns no signature,
`signDocument` surfaces the signing failure and the provider's `documents`
state keeps its prior value: no signature is appended and no document
field changes, because the single state write happens after the failure
point. -/
theorem C9_signing_failure_leaves_state (docs : List Document) (u : DocumentUser)
    (documentId : String) (now : String) (doc : Document)
    (hfind : findDocument docs documentId = some doc)
    (hdup : alreadySignedCheck doc u = false)
    (hreq : isRequiredSignerCheck doc u = true) :
    signDocumentRun docs (some u) documentId none now = (docs, some .signingFailed) := by
  simp [signDocumentRun, signDocument, hfind, hdup, hreq]

theorem C9_witness :
    signDocumentRun [c9doc] (some alice) "doc9" none "T1" =
      ([c9doc], some .signingFailed) :=
  C9_signing_failure_leaves_state [c9doc] alice "doc9" "T1" c9doc rfl rfl rfl

/-- Claim C3 (amended): once the caller is authenticated, the document is
found and the duplicate check has passed, `signDocument` rejects with the
not-a-required-signer error exactly when no `requiredSigners` entry has its
stored identifier equal to the caller's `userId` or its stored `username`
equal to the caller's email compared case-sensitively; `signDocumentDirect`
rejects exactly when no entry's stored identifier equals the caller's
`userId`.  Neither path compares emails case-insensitively and neither
matches the stored identifier against the caller's display name. -/
theorem C3_required_signer_policy (docs : List Document) (u : DocumentUser)
    (documentId : String) (signResult : Option String) (now : String) (doc : Document)
    (hfind : findDocument docs documentId = some doc)
    (hdup : alreadySignedCheck doc u = false) :
    (signDocument docs (some u) documentId signResult now = .error .notARequiredSigner ↔
      doc.requiredSigners.any (fun s => s.userId == u.userId || u.email == some s.username) =
        false) ∧
    (signDocumentDirect docs doc (some u) signResult now = .error .notARequiredSigner ↔
      doc.requiredSigners.any (fun s => s.userId == u.userId) = false) := by
  constructor
  · simp only [signDocument, hfind, hdup, Bool.false_eq_true, if_false]
    cases hreq : isRequiredSignerCheck doc u with
    | true =>
      simp only [isRequiredSignerCheck] at hreq
      simp only [hreq, Bool.not_true, Bool.false_eq_true, if_false]
      cases signResult <;> simp
    | false =>
      simp only [isRequiredSignerCheck] at hreq
      simp [hreq]
  · simp only [signDocumentDirect, hdup, Bool.false_eq_true, if_false]
    cases hreq : isRequiredSignerDirectCheck doc u with
    | true =>
      simp only [isRequiredSignerDirectCheck] at hreq
      simp only [hreq, Bool.not_true, Bool.false_eq_true, if_false]
      cases signResult <;> simp
    | false =>
      simp only [isRequiredSignerDirectCheck] at hreq
      simp [hreq]

theorem C3_counterexample :
    specIdentityMatch c3signer c3user = true ∧
    signDocument [c3doc] (some c3user) "doc3" (some "0xsig") "T1" =
      .error .notARequiredSigner :=
  ⟨by decide, rfl⟩

theorem C3_witness :
    (signDocument [c3wdoc] (some c3user) "doc3w" (some "s") "T" =
        .error .notARequiredSigner ↔
      c3wdoc.requiredSigners.any
        (fun s => s.userId == c3user.userId || c3user.email == some s.username) = false) ∧
    (signDocumentDirect [c3wdoc] c3wdoc (some c3user) (some "s") "T" =
        .error .notARequiredSigner ↔
      c3wdoc.requiredSigners.any (fun s => s.userId == c3user.userId) = false) :=
  C3_required_signer_policy [c3wdoc] c3user "doc3w" (some "s") "T" c3wdoc rfl rfl

/-- Claim C4 (amended): the precondition order of `signDocument` is
NotAuthenticated, then AlreadySigned, then NotARequiredSigner, first
failure winning — so an authenticated identity that is not a required
signer but has an existing signature record fails with AlreadySigned,
not NotARequiredSigner. -/
theorem C4_check_order (docs : List Document) (documentId : String)
    (signResult : Option String) (now : String) :
    (signDocument docs none documentId signResult now = .error .notAuthenticated) ∧
    (∀ u doc, findDocument docs documentId = some doc →
      alreadySignedCheck doc u = true →
      signDocument docs (some u) documentId signResult now = .error .alreadySigned) ∧
    (∀ u doc, findDocument docs documentId = some doc →
      alreadySignedCheck doc u = false → isRequiredSignerCheck doc u = false →
      signDocument docs (some u) documentId signResult now = .error .notARequiredSigner) := by
  refine ⟨rfl, ?_, ?_⟩
  · intro u doc hfind hdup
    simp [signDocument, hfind, hdup]
  · intro u doc hfind hdup hreq
    simp [signDocument, hfind, hdup, hreq]

theorem C4_counterexample :
    isRequiredSignerCheck c4doc c4user = false ∧
    alreadySignedCheck c4doc c4user = true ∧
    signDocument [c4doc] (some c4user) "doc4" (some "s") "T1" = .error .alreadySigned ∧
    SignError.alreadySigned ≠ SignError.notARequiredSigner :=
  ⟨rfl, rfl, rfl, by decide⟩

theorem C4_witness :
    signDocument [c4doc] (some c4user) "doc4" (some "s") "T1" = .error .alreadySigned :=
  (C4_check_order [c4doc] "doc4" (some "s") "T1").2.1 c4user c4doc rfl rfl

theorem applySignature_id (u : DocumentUser) (docSig : DocumentSignature)
    (documentId now : String) (d : Document) :
    (applySignature u docSig documentId now d).id = d.id := by
  unfold applySignature
  split <;> rfl

theorem findDocument_map_applySignature (docs : List Document) (u : DocumentUser)
    (docSig : DocumentSignature) (documentId now : String) :
    findDocument (docs.map (applySignature u docSig documentId now)) documentId =
      (findDocument docs documentId).map (applySignature u docSig documentId now) := by
  unfold findDocument
  have hpred : ((fun d : Document => d.id == documentId) ∘
      applySignature u docSig documentId now) =
      fun d : Document => d.id == documentId := by
    funext d
    simp [Function.comp, applySignature_id]
  rw [List.find?_map, hpred]

/-- Claim C5 (amended): `signDocument` fails with AlreadySigned exactly
when an existing signature's signer snapshot has the calling identity's
`userId` (emails and display names are not consulted); because a new
signature snapshots the caller, a second attempt by the same identity on
the same document always fails with AlreadySigned. -/
theorem C5_duplicate_policy (docs : List Document) (u : DocumentUser)
    (documentId : String) (signResult : Option String) (now : String) (doc : Document)
    (hfind : findDocument docs documentId = some doc) :
    (signDocument docs (some u) documentId signResult now = .error .alreadySigned ↔
      doc.signatures.any (fun sig => sig.signer.userId == u.userId) = true) ∧
    (∀ docs' sigBytes, signResult = some sigBytes →
      signDocument docs (some u) documentId signResult now = .ok docs' →
      ∀ r' now2, signDocument docs' (some u) documentId r' now2 = .error .alreadySigned) := by
  constructor
  · simp only [signDocument, hfind]
    cases hdup : alreadySignedCheck doc u with
    | true =>
      simp only [alreadySignedCheck] at hdup
      simp [hdup]
    | false =>
      have hdup' := hdup
      simp only [alreadySignedCheck] at hdup'
      simp only [hdup, Bool.false_eq_true, if_false, hdup']
      cases isRequiredSignerCheck doc u <;> cases signResult <;> simp
  · intro docs' sigBytes hsr hok r' now2
    subst hsr
    have hid : doc.id = documentId := by
      have h := hfind
      unfold findDocument at h
      have h2 := List.find?_some h
      simpa using h2
    simp only [signDocument, hfind] at hok
    cases hdup : alreadySignedCheck doc u with
    | true => simp [hdup] at hok
    | false =>
      simp only [hdup, Bool.false_eq_true, if_false] at hok
      cases hreq : isRequiredSignerCheck doc u with
      | false => simp [hreq] at hok
      | true =>
        simp only [hreq, Bool.not_true, Bool.false_eq_true, if_false] at hok
        have hdocs' : docs' =
            docs.map (applySignature u (mkSignature u sigBytes now doc.content.hash)
              documentId now) := by
          cases hok
          rfl
        subst hdocs'
        have hfind' : findDocument
            (docs.map (applySignature u (mkSignature u sigBytes now doc.content.hash)
              documentId now)) documentId =
            some (applySignature u (mkSignature u sigBytes now doc.content.hash)
              documentId now doc) := by
          rw [findDocument_map_applySignature, hfind]
          rfl
        have hdup' : alreadySignedCheck
            (applySignature u (mkSignature u sigBytes now doc.content.hash)
              documentId now doc) u = true := by
          simp [alreadySignedCheck, applySignature, hid, mkSignature]
        simp [signDocument, hfind', hdup']

theorem C5_counterexample :
    specSignerMatch c5sigUser c5user = true ∧
    (signDocument [c5doc] (some c5user) "doc5" (some "s2") "T1").isOk = true :=
  ⟨by decide, rfl⟩

theorem C5_witness :
    (signDocument [c5wdoc] (some c5user) "doc5w" (some "s") "T1" = .error .alreadySigned ↔
      c5wdoc.signatures.any (fun sig => sig.signer.userId == c5user.userId) = true) ∧
    (∀ docs' sigBytes, (some "s" : Option String) = some sigBytes →
      signDocument [c5wdoc] (some c5user) "doc5w" (some "s") "T1" = .ok docs' →
      ∀ r' now2, signDocument docs' (some c5user) "doc5w" r' now2 =
        .error .alreadySigned) :=
  C5_duplicate_policy [c5wdoc] c5user "doc5w" (some "s") "T1" c5wdoc rfl

/-- Claim C2 (amended): after a signature append the status is recomputed
from the updated cached `hasSigned` flags, not from a dynamic match of
signatures against required signers: entries matching the current signer
(stored identifier equal to the caller's `userId` or email, or stored
`username` equal to the caller's email) are flagged, and the status becomes
"complete" iff every flag — including any stale pre-existing flag — is set,
else "partial" (the signatures list being non-empty after the append). -/
theorem C2_status_from_cached_flags (u : DocumentUser) (docSig : DocumentSignature)
    (documentId now : String) (d : Document) (hid : d.id = documentId) :
    (applySignature u docSig documentId now d).requiredSigners =
      d.requiredSigners.map (markSigned u) ∧
    (applySignature u docSig documentId now d).signatures = d.signatures ++ [docSig] ∧
    (applySignature u docSig documentId now d).status =
      (if (d.requiredSigners.map (markSigned u)).all (fun s => s.hasSigned) then "complete"
       else "partial") := by
  refine ⟨?_, ?_, ?_⟩ <;> simp [applySignature, hid]

theorem C2_counterexample :
    c2after.map Document.status = ["partial"] ∧
    ("partial" : String) ≠ "complete" ∧
    c2after.map (fun d => d.requiredSigners.all
      (fun r => d.signatures.any (fun sig => specIdentityMatch r sig.signer))) = [true] :=
  ⟨rfl, by decide, rfl⟩

theorem C2_witness :
    (applySignature c2alice c7sig "doc2" "T1" c2doc).requiredSigners =
      c2doc.requiredSigners.map (markSigned c2alice) ∧
    (applySignature c2alice c7sig "doc2" "T1" c2doc).signatures =
      c2doc.signatures ++ [c7sig] ∧
    (applySignature c2alice c7sig "doc2" "T1" c2doc).status =
      (if (c2doc.requiredSigners.map (markSigned c2alice)).all (fun s => s.hasSigned)
       then "complete" else "partial") :=
  C2_status_from_cached_flags c2alice c7sig "doc2" "T1" c2doc rfl

/-- On reachable documents an empty required-signer list forces an empty
signature list: both required-signer checks fail on an empty list, so no
signature can ever be appended. -/
theorem reachable_empty_required (d : Document) (h : Reachable d)
    (hreq : d.requiredSigners = []) : d.signatures = [] := by
  induction h with
  | created keccak id data u now ids =>
    simp [mkDocument]
  | signed d u sigBytes now hr hdup hcheck ih =>
    exfalso
    have hid : (d.id != d.id) = false := by simp
    have hreq' : d.requiredSigners = [] := by
      have h2 := hreq
      simp only [applySignature, hid, Bool.false_eq_true, if_false] at h2
      exact List.map_eq_nil_iff.mp h2
    rw [isRequiredSignerCheck, isRequiredSignerDirectCheck, hreq'] at hcheck
    simp at hcheck

/-- Claim C10: `getSignatureStatus` reports `signed` as the raw length of
`signatures` and `complete` as equality of that length with the length of
`requiredSigners`, with no matching of signatures to signers; `pending` and
`missingSigners` come from the cached `hasSigned` flags; and on any
document the provider can actually produce whose `requiredSigners` list is
empty it returns `complete = true` and `percentage = 0`. -/
theorem C10_signature_status (doc : Document) :
    (getSignatureStatusDoc doc).signed = doc.signatures.length ∧
    (getSignatureStatusDoc doc).complete =
      (doc.signatures.length == doc.requiredSigners.length) ∧
    (getSignatureStatusDoc doc).pending =
      (doc.requiredSigners.filter (fun s => !s.hasSigned)).map (fun s => s.userId) ∧
    (getSignatureStatusDoc doc).missingSigners =
      doc.requiredSigners.filter (fun s => !s.hasSigned) ∧
    (Reachable doc → doc.requiredSigners = [] →
      (getSignatureStatusDoc doc).complete = true ∧
        (getSignatureStatusDoc doc).percentage = 0) := by
  refine ⟨rfl, rfl, rfl, rfl, ?_⟩
  intro hr hreq
  have hs := reachable_empty_required doc hr hreq
  constructor
  · simp [getSignatureStatusDoc, hs, hreq]
  · simp [getSignatureStatusDoc, hreq]

theorem C10_witness :
    (getSignatureStatusDoc c10doc).complete = true ∧
      (getSignatureStatusDoc c10doc).percentage = 0 :=
  (C10_signature_status c10doc).2.2.2.2
    (Reachable.created hashFn "doc10" (.text "t") alice "T0" []) rfl

theorem verifySignature_hashMatch (recover : String → String → Option String)
    (sig : DocumentSignature) (doc : Document) :
    (verifySignature recover sig doc).hashMatch =
      ((recover (createDocumentMessage doc) sig.signature).isSome &&
        (sig.documentHash == doc.content.hash)) := by
  unfold verifySignature
  cases h : recover (createDocumentMessage doc) sig.signature <;> simp [h]

/-- Claim C1 (amended): `verifySignature` computes `hashMatch` by comparing
the signature's recorded `documentHash` against the document's *stored*
`content.hash` field, with no recomputation from the content (it is `false`
only when recovery throws or the two stored strings differ).  After a
mutation of `content.data` whose canonical form hashes differently,
`verifyDocument` does return `contentHashValid = false` and `valid = false`
(that check does recompute), but each prior signature still reports
`hashMatch` by the stored-hash comparison — in particular `hashMatch = true`
whenever recovery succeeds and the recorded hash equals the unchanged
stored hash. -/
theorem C1_hashMatch_uses_stored_hash (keccak : String → String)
    (recover : String → String → Option String) (doc : Document)
    (sig : DocumentSignature) (data' : ContentData)
    (hmut : keccak (canonicalForm data') ≠ doc.content.hash) :
    ((verifySignature recover sig doc).hashMatch =
      ((recover (createDocumentMessage doc) sig.signature).isSome &&
        (sig.documentHash == doc.content.hash))) ∧
    (verifyDocumentDoc keccak recover (mutateContent doc data')).contentHashValid = false ∧
    (verifyDocumentDoc keccak recover (mutateContent doc data')).valid = false ∧
    (∀ sig' ∈ (mutateContent doc data').signatures,
      (verifySignature recover sig' (mutateContent doc data')).hashMatch =
        ((recover (createDocumentMessage (mutateContent doc data')) sig'.signature).isSome &&
          (sig'.documentHash == doc.content.hash))) := by
  have hchv : (verifyDocumentDoc keccak recover (mutateContent doc data')).contentHashValid =
      false := by
    simp only [verifyDocumentDoc, mutateContent, hashDocumentContent]
    simpa using hmut
  refine ⟨verifySignature_hashMatch recover sig doc, hchv, ?_, ?_⟩
  · have : (verifyDocumentDoc keccak recover (mutateContent doc data')).valid =
        ((verifyDocumentDoc keccak recover (mutateContent doc data')).signaturesValid &&
          (verifyDocumentDoc keccak recover (mutateContent doc data')).contentHashValid &&
          (verifyDocumentDoc keccak recover (mutateContent doc data')).allSignersPresent) := by
      simp [verifyDocumentDoc]
    rw [this, hchv]
    simp
  · intro sig' _
    rw [verifySignature_hashMatch]
    have hh : (mutateContent doc data').content.hash = doc.content.hash := rfl
    rw [hh]

theorem C1_counterexample :
    (verifyDocumentDoc hashFn recoverAA c1orig).valid = true ∧
    c1mut = mutateContent c1orig (.text "hellp") ∧
    (verifyDocumentDoc hashFn recoverAA c1mut).valid = false ∧
    (verifyDocumentDoc hashFn recoverAA c1mut).contentHashValid = false ∧
    c1sig ∈ c1mut.signatures ∧
    (verifySignature recoverAA c1sig c1mut).hashMatch = true :=
  ⟨rfl, rfl, rfl, rfl, by decide, rfl⟩

theorem C1_witness :
    (verifyDocumentDoc hashFn recoverAA (mutateContent c1orig (.text "hellp"))).contentHashValid
        = false ∧
    (verifyDocumentDoc hashFn recoverAA (mutateContent c1orig (.text "hellp"))).valid = false ∧
    (verifySignature recoverAA c1sig (mutateContent c1orig (.text "hellp"))).hashMatch =
      ((recoverAA (createDocumentMessage (mutateContent c1orig (.text "hellp")))
          c1sig.signature).isSome &&
        (c1sig.documentHash == c1orig.content.hash)) :=
  ⟨(C1_hashMatch_uses_stored_hash hashFn recoverAA c1orig c1sig (.text "hellp")
      (by decide)).2.1,
   (C1_hashMatch_uses_stored_hash hashFn recoverAA c1orig c1sig (.text "hellp")
      (by decide)).2.2.1,
   (C1_hashMatch_uses_stored_hash hashFn recoverAA c1orig c1sig (.text "hellp")
      (by decide)).2.2.2 c1sig (by decide)⟩

/-- Claim C6 (amended): for every structured value with duplicate-free
object keys and any permutation of its object fields (at any depth),
`canonicalizeJSON` produces the identical canonical string — and hence
`hashDocumentContent` produces the identical hash — the keys being sorted
in ascending UTF-16 code-unit order (JavaScript's default sort), which
coincides with code-point order except on keys containing
supplementary-plane characters; no whitespace is inserted and array order
is preserved by construction. -/
theorem C6_canonicalize_key_permutation (keccak : String → String) (h : String)
    (v w : JsonValue) (hkp : KeyPerm v w) (hnd : nodupKeys v = true) :
    canonicalizeJSON w = canonicalizeJSON v ∧
    hashDocumentContent keccak { data := .json w, hash := h } =
      hashDocumentContent keccak { data := .json v, hash := h } := by
  have hc : canonicalizeJSON v = canonicalizeJSON w :=
    canonicalizeJSON_keyPerm_aux (sizeOf v) v w le_rfl hkp hnd
  exact ⟨hc.symm, by simp [hashDocumentContent, canonicalForm, hc]⟩

theorem c6v_keyPerm_c6w : KeyPerm c6v c6w :=
  @KeyPerm.obj [("b", JsonValue.num "1"), ("a", JsonValue.num "2")]
    [("b", JsonValue.num "1"), ("a", JsonValue.num "2")]
    [("a", JsonValue.num "2"), ("b", JsonValue.num "1")]
    rfl
    (List.Forall₂.cons (KeyPerm.num "1")
      (List.Forall₂.cons (KeyPerm.num "2") List.Forall₂.nil))
    (List.Perm.swap ("a", JsonValue.num "2") ("b", JsonValue.num "1") [])

theorem C6_witness :
    canonicalizeJSON c6w = canonicalizeJSON c6v ∧
    hashDocumentContent hashFn { data := .json c6w, hash := "" } =
      hashDocumentContent hashFn { data := .json c6v, hash := "" } :=
  C6_canonicalize_key_permutation hashFn "" c6v c6w c6v_keyPerm_c6w
    (by simp [nodupKeys, nodupKeysFields, strNodup]; decide)

theorem C6_counterexample :
    cpLt cpKeyA cpKeyB = true ∧
    jsLtStr cpKeyB cpKeyA = true ∧
    canonicalizeJSON cpObj ≠ canonicalizeJSONCodepoint cpObj := by
  refine ⟨by decide, by decide, ?_⟩
  simp only [canonicalizeJSON, canonicalizeJSONCodepoint, cpObj, canonValue, canonFields]
  decide

end MultiSign
